import Mathlib

/-!
Shallow embedding of the Foodgram backend's shopping-cart aggregation and
recipe-relation toggle subsystem (`backend/api/views.py`,
`backend/api/serializers.py`, `backend/foods/models.py`).

Database tables are lists of records; each view method becomes a function
from a database state (plus the authenticated user's id and the raw URL
id string) to a result carrying the response and the successor state.
Python's `int(pk)` conversion is modelled by `pyInt`; an exception that
the view does not catch (ValueError from `int`, IntegrityError from a
uniqueness constraint, DoesNotExist escaping a bare `get`) is a `crash`
result, while an error the view turns into a structured HTTP response is
an `err` result.
-/

namespace Foodgram

/-- A row of the `Ingredient` table (`foods/models.py`): name and
measurement unit, with surrogate primary key `id`. -/
structure Ingredient where
  id : Nat
  name : String
  measurement_unit : String
  deriving DecidableEq

/-- A row of the `Tag` table (`foods/models.py`). -/
structure Tag where
  id : Nat
  name : String
  slug : String
  deriving DecidableEq

/-- A row of the `Recipe` table (`foods/models.py`): scalar fields plus
the owning author's user id; the image is kept as its storage reference. -/
structure Recipe where
  id : Nat
  name : String
  text : String
  cooking_time : Nat
  image : String
  author : Nat
  deriving DecidableEq

/-- A row of the `IngredientRecipe` association table: (recipe id,
ingredient id, amount). -/
structure IngredientRecipe where
  recipe : Nat
  ingredient : Nat
  amount : Nat
  deriving DecidableEq

/-- A row of the implicit `Recipe.tags` many-to-many table. -/
structure TagRecipe where
  recipe : Nat
  tag : Nat
  deriving DecidableEq

/-- A row of the `User` table (only the fields the embedded views read). -/
structure User where
  id : Nat
  username : String
  email : String
  deriving DecidableEq

/-- The database state: one list per table.  `favorites`, `cart` and
`follows` are the three relation join tables, stored as (user id,
target id) pairs exactly as `Favorite`, `Cart` and `Follow` hold
(user, recipe) resp. (user, following) foreign-key pairs. -/
structure State where
  users : List User
  ingredients : List Ingredient
  tags : List Tag
  recipes : List Recipe
  ingredientRecipes : List IngredientRecipe
  tagRecipes : List TagRecipe
  favorites : List (Nat × Nat)
  cart : List (Nat × Nat)
  follows : List (Nat × Nat)
  deriving DecidableEq

/-- The structured failures the service layer reports as HTTP error
responses (404 or 400 with a message). -/
inductive ApiError where
  | notFound
  | alreadyExists
  | notPresent
  | emptyCart
  | selfReference
  | missingFields
  | unknownIngredient
  | duplicateIngredient
  | unknownTag
  | duplicateTag
  deriving DecidableEq

/-- Python exceptions the view code does not catch: `ValueError` from
`int(pk)`, `IntegrityError` from a storage uniqueness constraint, and a
`DoesNotExist` escaping an unguarded `get`. -/
inductive PyExc where
  | valueError
  | integrityError
  | doesNotExist
  deriving DecidableEq

/-- Outcome of one view call: a successful response, a handled structured
error response, or an unhandled exception; each carries the database
state after the call. -/
inductive Result (α : Type) where
  | ok (val : α) (state : State)
  | err (e : ApiError) (state : State)
  | crash (exc : PyExc) (state : State)
  deriving DecidableEq

/-- The state component of a result. -/
def Result.state {α : Type} : Result α → State
  | .ok _ s => s
  | .err _ s => s
  | .crash _ s => s

/-- Reads a digit string as a natural number; `none` if empty or any
character is not a decimal digit. -/
def digitsToNat (cs : List Char) : Option Nat :=
  if cs.isEmpty then none
  else cs.foldl
    (fun acc c => acc.bind fun n =>
      if c.isDigit then some (n * 10 + (c.toNat - 48)) else none)
    (some 0)

/-- Strips leading and trailing whitespace from a character list. -/
def trimChars (cs : List Char) : List Char :=
  (((cs.dropWhile Char.isWhitespace).reverse).dropWhile
    Char.isWhitespace).reverse

/-- Model of Python's `int(str)` conversion: optional surrounding
whitespace and an optional sign followed by decimal digits; any other
string raises `ValueError` (modelled as `none`). -/
def pyInt (s : String) : Option Int :=
  match trimChars s.data with
  | '-' :: rest => (digitsToNat rest).map (fun n => -(n : Int))
  | '+' :: rest => (digitsToNat rest).map (fun n => (n : Int))
  | cs => (digitsToNat cs).map (fun n => (n : Int))

/-- The compact recipe projection returned by `RecipeForUserSerializer`
(`serializers.py`): fields `id`, `name`, `image`, `cooking_time`. -/
structure RecipeProj where
  id : Nat
  name : String
  image : String
  cooking_time : Nat
  deriving DecidableEq

/-- Projects a recipe row to the compact `RecipeForUserSerializer` form. -/
def recipeProj (r : Recipe) : RecipeProj :=
  ⟨r.id, r.name, r.image, r.cooking_time⟩

/-- Looks a recipe up by the integer coerced from the URL id string, as
`Recipe.objects.get(id=...)` / `filter(id=...)` do. -/
def findRecipe (s : State) (n : Int) : Option Recipe :=
  s.recipes.find? (fun r => ((r.id : Int) == n))

/-- View `RecipeViewSet.favorite` (views.py 111-131), split into its
check phase (read against snapshot `scheck`) and its insert phase
(executed against the database state `sdb`).  The single-request view is
`favoriteAdd` below, where both snapshots coincide; taking `scheck ≠ sdb`
exposes the interleaving in which another request commits a row between
the `exists()` check and the `create()` call, whereupon the uniqueness
constraint `unique_favorite` makes `create` raise an IntegrityError that
the view does not catch. -/
def favoriteAddPhased (scheck sdb : State) (u : Nat) (pk : String) :
    Result RecipeProj :=
  match pyInt pk with
  | none => .crash .valueError sdb
  | some n =>
    match findRecipe scheck n with
    | none => .err .notFound sdb
    | some r =>
      if scheck.favorites.contains (u, r.id) then .err .alreadyExists sdb
      else if sdb.favorites.contains (u, r.id) then .crash .integrityError sdb
      else .ok (recipeProj r) { sdb with favorites := sdb.favorites ++ [(u, r.id)] }

/-- View `RecipeViewSet.favorite` as executed within one request: check and
insert see the same state. -/
def favoriteAdd (s : State) (u : Nat) (pk : String) : Result RecipeProj :=
  favoriteAddPhased s s u pk

/-- View `RecipeViewSet.shopping_cart` (views.py 69-89), phased like
`favoriteAddPhased`.  The existence test `Recipe.objects.filter(id=pk)`
coerces the string `pk` to an integer (raising ValueError on a
non-numeric string) and the insert re-fetches the recipe with
`Recipe.objects.get(id=pk)` (an unguarded get). -/
def shoppingCartAddPhased (scheck sdb : State) (u : Nat) (pk : String) :
    Result RecipeProj :=
  match pyInt pk with
  | none => .crash .valueError sdb
  | some n =>
    if (findRecipe scheck n).isNone then .err .notFound sdb
    else if scheck.cart.any (fun c => c.1 == u && ((c.2 : Int) == n)) then
      .err .alreadyExists sdb
    else
      match findRecipe sdb n with
      | none => .crash .doesNotExist sdb
      | some r =>
        if sdb.cart.contains (u, r.id) then .crash .integrityError sdb
        else .ok (recipeProj r) { sdb with cart := sdb.cart ++ [(u, r.id)] }

/-- View `RecipeViewSet.shopping_cart` as executed within one request. -/
def shoppingCartAdd (s : State) (u : Nat) (pk : String) : Result RecipeProj :=
  shoppingCartAddPhased s s u pk

/-- View `RecipeViewSet.delete_favorite` (views.py 133-150): coerce the id,
404 if the recipe is missing, 400 if the user has no Favorite row for
it, otherwise delete that row. -/
def deleteFavorite (s : State) (u : Nat) (pk : String) : Result Unit :=
  match pyInt pk with
  | none => .crash .valueError s
  | some n =>
    match findRecipe s n with
    | none => .err .notFound s
    | some r =>
      if s.favorites.contains (u, r.id) then
        .ok () { s with favorites := s.favorites.erase (u, r.id) }
      else .err .notPresent s

/-- View `RecipeViewSet.delete_shopping_cart` (views.py 91-109). -/
def deleteShoppingCart (s : State) (u : Nat) (pk : String) : Result Unit :=
  match pyInt pk with
  | none => .crash .valueError s
  | some n =>
    match findRecipe s n with
    | none => .err .notFound s
    | some r =>
      if s.cart.contains (u, r.id) then
        .ok () { s with cart := s.cart.erase (u, r.id) }
      else .err .notPresent s

/-- Looks a user up by coerced id, as `get_object_or_404(User, id=int(id))`. -/
def findUser (s : State) (n : Int) : Option User :=
  s.users.find? (fun v => ((v.id : Int) == n))

/-- View `UserViewSet.subscribe` (views.py 226-238), phased like
`favoriteAddPhased`: 404 if the target user is missing, 400 on
self-subscription, 400 if already following, otherwise insert the
Follow row (whose loss of a race raises an uncaught IntegrityError from
`unique_following`). -/
def subscribeAddPhased (scheck sdb : State) (u : Nat) (idStr : String) :
    Result Nat :=
  match pyInt idStr with
  | none => .crash .valueError sdb
  | some n =>
    match findUser scheck n with
    | none => .err .notFound sdb
    | some t =>
      if u == t.id then .err .selfReference sdb
      else if scheck.follows.contains (u, t.id) then .err .alreadyExists sdb
      else if sdb.follows.contains (u, t.id) then .crash .integrityError sdb
      else .ok t.id { sdb with follows := sdb.follows ++ [(u, t.id)] }

/-- View `UserViewSet.subscribe` as executed within one request. -/
def subscribeAdd (s : State) (u : Nat) (idStr : String) : Result Nat :=
  subscribeAddPhased s s u idStr

/-- View `UserViewSet.delete_subscribe` (views.py 240-250). -/
def deleteSubscribe (s : State) (u : Nat) (idStr : String) : Result Unit :=
  match pyInt idStr with
  | none => .crash .valueError s
  | some n =>
    match findUser s n with
    | none => .err .notFound s
    | some t =>
      if s.follows.contains (u, t.id) then
        .ok () { s with follows := s.follows.erase (u, t.id) }
      else .err .notPresent s

/-- The Cart rows of user `u`, in table order
(`Cart.objects.filter(user=current_user)` resp. `current_user.cart`). -/
def cartRowsOf (s : State) (u : Nat) : List (Nat × Nat) :=
  s.cart.filter (fun c => c.1 == u)

/-- The SQL join produced by
`IngredientRecipe.objects.filter(recipe__cart__user=current_user)`:
one output row per (cart row of `u`, association row of that cart row's
recipe) pair. -/
def joinRows (s : State) (u : Nat) : List IngredientRecipe :=
  (cartRowsOf s u).flatMap
    (fun c => s.ingredientRecipes.filter (fun ir => ir.recipe == c.2))

/-- The grouping key `(ingredient__name, ingredient__measurement_unit)`
of an association row, resolved through the Ingredient table (the
foreign key guarantees the lookup succeeds in a consistent state; an
orphaned row would simply be dropped by the SQL inner join). -/
def ingKey (s : State) (ing : Nat) : Option (String × String) :=
  (s.ingredients.find? (fun i => i.id == ing)).map
    (fun i => (i.name, i.measurement_unit))

/-- The joined rows keyed for grouping: (key, amount) pairs. -/
def keyedRows (s : State) (u : Nat) : List ((String × String) × Nat) :=
  (joinRows s u).filterMap
    (fun ir => (ingKey s ir.ingredient).map (fun k => (k, ir.amount)))

/-- The `SUM(amount)` aggregate over the keyed rows carrying key `k`. -/
def sumForKey (rows : List ((String × String) × Nat)) (k : String × String) :
    Nat :=
  ((rows.filter (fun r => r.1 == k)).map (fun r => r.2)).sum

/-- The distinct grouping keys, in first-occurrence order (the `GROUP BY`
of `.values(...).annotate(Sum('amount'))`). -/
def groupKeys (rows : List ((String × String) × Nat)) :
    List (String × String) :=
  (rows.map (fun r => r.1)).dedup

/-- View `RecipeViewSet.download_shopping_cart` (views.py 155-182) up to the
plain-text rendering: raise a validation error on an empty cart,
otherwise return one (name, unit, summed amount) row per distinct
grouping key of the joined cart ingredients.  Read-only: the state is
returned unchanged. -/
def downloadShoppingCart (s : State) (u : Nat) :
    Result (List (String × String × Nat)) :=
  if (cartRowsOf s u).isEmpty then .err .emptyCart s
  else
    let rows := keyedRows s u
    .ok ((groupKeys rows).map (fun k => (k.1, k.2, sumForKey rows k))) s

/-- A (name, unit) pair occurs among the ingredient associations of the
recipes in user `u`'s cart: some cart row's recipe has an association
row whose ingredient carries that name and unit. -/
def keyOccurs (s : State) (u : Nat) (k : String × String) : Prop :=
  ∃ c ∈ cartRowsOf s u, ∃ ir ∈ s.ingredientRecipes,
    ir.recipe = c.2 ∧ ingKey s ir.ingredient = some k

/-- The total amount for a (name, unit) pair across user `u`'s cart:
for each cart row, the amounts of the association rows of its recipe
whose ingredient carries the pair, all summed. -/
def keyTotal (s : State) (u : Nat) (k : String × String) : Nat :=
  ((cartRowsOf s u).map (fun c =>
    (((s.ingredientRecipes.filter (fun ir => ir.recipe == c.2)).filter
        (fun ir => ingKey s ir.ingredient == some k)).map
      (fun ir => ir.amount)).sum)).sum

/-- One entry of the `ingredients` list of a recipe write request, after
field deserialization: the referenced ingredient id (field `id`, source
`ingredient`) and the `amount`. -/
structure IngEntry where
  ingredient : Nat
  amount : Nat
  deriving DecidableEq

/-- The scalar payload of a recipe write request together with its two
association lists; `none` models an absent key in the request body. -/
structure RecipeInput where
  ingredients : Option (List IngEntry)
  tags : Option (List Nat)
  name : String
  text : String
  cooking_time : Nat
  image : String
  deriving DecidableEq

/-- Field-level resolution of the `ingredients` list: the
`PrimaryKeyRelatedField(queryset=Ingredient.objects.all())` inside
`IngredientRecipeSerializer` rejects the request with an invalid-pk
validation error if any referenced ingredient id does not exist. -/
def resolveIngredients (s : State) (entries : List IngEntry) :
    Except ApiError Unit :=
  if entries.all (fun e => s.ingredients.any (fun i => i.id == e.ingredient))
  then .ok () else .error .unknownIngredient

/-- Field-level resolution of the `tags` list by its
`PrimaryKeyRelatedField(queryset=Tag.objects.all(), many=True)`. -/
def resolveTags (s : State) (entries : List Nat) : Except ApiError Unit :=
  if entries.all (fun t => s.tags.any (fun tg => tg.id == t))
  then .ok () else .error .unknownTag

/-- The ingredient loop of `RecipeWriteSerializer.validate`
(serializers.py 150-159): per entry, re-fetch the ingredient (a missing
one raises the unknown-ingredient error) and reject a repeat of an
already seen ingredient. -/
def validateIngLoop (s : State) :
    List IngEntry → List Nat → Except ApiError Unit
  | [], _ => .ok ()
  | e :: rest, seen =>
    match s.ingredients.find? (fun i => i.id == e.ingredient) with
    | none => .error .unknownIngredient
    | some ing =>
      if seen.contains ing.id then .error .duplicateIngredient
      else validateIngLoop s rest (seen ++ [ing.id])

/-- The tag loop of `RecipeWriteSerializer.validate` (serializers.py
160-167): `get_object_or_404` raises a 404 for a missing tag and a
repeated tag is rejected. -/
def validateTagLoop (s : State) :
    List Nat → List Nat → Except ApiError Unit
  | [], _ => .ok ()
  | t :: rest, seen =>
    match s.tags.find? (fun tg => tg.id == t) with
    | none => .error .notFound
    | some tg =>
      if seen.contains tg.id then .error .duplicateTag
      else validateTagLoop s rest (seen ++ [tg.id])

/-- The full validation pipeline of a recipe write: an absent list fails
as missing fields (the required-field error, resp. the KeyError branch
of `validate`), field-level pk resolution runs next, then
`RecipeWriteSerializer.validate` rejects empty lists and duplicates. -/
def runValidation (s : State) (ings? : Option (List IngEntry))
    (tgs? : Option (List Nat)) :
    Except ApiError (List IngEntry × List Nat) :=
  match ings?, tgs? with
  | some ings, some tgs =>
    match resolveIngredients s ings with
    | .error e => .error e
    | .ok _ =>
      match resolveTags s tgs with
      | .error e => .error e
      | .ok _ =>
        if ings.isEmpty || tgs.isEmpty then .error .missingFields
        else
          match validateIngLoop s ings [] with
          | .error e => .error e
          | .ok _ =>
            match validateTagLoop s tgs [] with
            | .error e => .error e
            | .ok _ => .ok (ings, tgs)
  | _, _ => .error .missingFields

/-- The fresh primary key the storage layer assigns to a newly inserted
recipe: one above the largest id in use. -/
def nextRecipeId (s : State) : Nat :=
  (s.recipes.map (fun r => r.id)).foldr max 0 + 1

/-- The association rows `RecipeWriteSerializer.ingredient_recipe`
bulk-creates for recipe `rid` from the validated entries. -/
def assocRowsFor (rid : Nat) (ings : List IngEntry) :
    List IngredientRecipe :=
  ings.map (fun e => ⟨rid, e.ingredient, e.amount⟩)

/-- The tag association rows written by the m2m `set` for recipe `rid`. -/
def tagRowsFor (rid : Nat) (tgs : List Nat) : List TagRecipe :=
  tgs.map (fun t => ⟨rid, t⟩)

/-- Serializer method `RecipeWriteSerializer.create` behind the create view (serializers.py
183-187): validate, then insert the Recipe row (with its tag m2m set by
the model serializer) and bulk-create the ingredient association rows.
Returns the new recipe's id. -/
def recipeCreate (s : State) (author : Nat) (inp : RecipeInput) :
    Result Nat :=
  match runValidation s inp.ingredients inp.tags with
  | .error e => .err e s
  | .ok (ings, tgs) =>
    let rid := nextRecipeId s
    .ok rid
      { s with
        recipes := s.recipes ++
          [⟨rid, inp.name, inp.text, inp.cooking_time, inp.image, author⟩],
        tagRecipes := s.tagRecipes ++ tagRowsFor rid tgs,
        ingredientRecipes := s.ingredientRecipes ++ assocRowsFor rid ings }

/-- Serializer method `RecipeWriteSerializer.update` behind the update view (serializers.py
189-194): validate, clear the recipe's ingredient and tag associations,
bulk-create the new ingredient associations, and let the model
serializer update the scalar fields and set the new tag associations. -/
def recipeUpdate (s : State) (rid : Nat) (inp : RecipeInput) : Result Nat :=
  match runValidation s inp.ingredients inp.tags with
  | .error e => .err e s
  | .ok (ings, tgs) =>
    .ok rid
      { s with
        recipes := s.recipes.map (fun r =>
          if r.id == rid then
            { r with name := inp.name, text := inp.text,
                     cooking_time := inp.cooking_time, image := inp.image }
          else r),
        ingredientRecipes :=
          (s.ingredientRecipes.filter (fun ir => ir.recipe != rid)) ++
            assocRowsFor rid ings,
        tagRecipes :=
          (s.tagRecipes.filter (fun tr => tr.recipe != rid)) ++
            tagRowsFor rid tgs }

/-- The association list `RecipeReadSerializer` renders for a recipe:
its `IngredientRecipe` rows (reverse accessor `recipes`), projected to
(ingredient id, amount). -/
def readAssociations (s : State) (rid : Nat) : List (Nat × Nat) :=
  (s.ingredientRecipes.filter (fun ir => ir.recipe == rid)).map
    (fun ir => (ir.ingredient, ir.amount))

/-! Concrete example states used to instantiate the theorems. -/

/-- A state with one user, "salt" (grams), and two recipes both in user
1's cart: recipe 1 uses 2 g of salt, recipe 2 uses 3 g of salt. -/
def saltState : State :=
  { users := [⟨1, "u", "u@example.com"⟩],
    ingredients := [⟨1, "salt", "g"⟩],
    tags := [],
    recipes := [⟨1, "A", "", 5, "a.png", 1⟩, ⟨2, "B", "", 7, "b.png", 1⟩],
    ingredientRecipes := [⟨1, 1, 2⟩, ⟨2, 1, 3⟩],
    tagRecipes := [],
    favorites := [],
    cart := [(1, 1), (1, 2)],
    follows := [] }

/-- A state with two users, one recipe and all relation tables empty. -/
def baseState : State :=
  { users := [⟨1, "u", "u@example.com"⟩, ⟨2, "v", "v@example.com"⟩],
    ingredients := [⟨1, "salt", "g"⟩],
    tags := [⟨1, "breakfast", "breakfast"⟩],
    recipes := [⟨1, "A", "", 5, "a.png", 1⟩],
    ingredientRecipes := [⟨1, 1, 2⟩],
    tagRecipes := [⟨1, 1⟩],
    favorites := [],
    cart := [],
    follows := [] }

/-- State `saltState` extended with a tag and tag associations for both
recipes, to exercise recipe updates. -/
def updState : State :=
  { saltState with
    tags := [⟨1, "breakfast", "breakfast"⟩],
    tagRecipes := [⟨1, 1⟩, ⟨2, 1⟩] }

/-- State `baseState` with a second ingredient, for the round-trip witness. -/
def rtState : State :=
  { baseState with
    ingredients := [⟨1, "salt", "g"⟩, ⟨1002, "pepper", "g"⟩] }

/-! Theorems for the frozen claims. -/

/-- C4: for every user whose cart contains zero recipes, the aggregator
fails with EmptyCart and performs no state change (the state in the
error result is the input state). -/
theorem download_shopping_cart_empty (s : State) (u : Nat)
    (h : cartRowsOf s u = []) :
    downloadShoppingCart s u = .err .emptyCart s := by
  unfold downloadShoppingCart
  simp [h]

/-- Witness for C4: user 2's cart in `baseState` is empty and the
aggregator reports EmptyCart leaving the state unchanged. -/
theorem download_shopping_cart_empty_witness :
    downloadShoppingCart baseState 2 = .err .emptyCart baseState :=
  download_shopping_cart_empty baseState 2 (by decide)

/-- C5: for every user `u` and every state of the Follow table,
subscribing to one's own id fails with SelfReference and inserts no
Follow row: whenever the id string resolves to a user record whose id is
`u` itself, the result is the SelfReference error with the state
unchanged. -/
theorem subscribe_self_reference (s : State) (u : Nat) (idStr : String)
    (n : Int) (t : User)
    (hn : pyInt idStr = some n)
    (ht : findUser s n = some t)
    (hself : t.id = u) :
    subscribeAdd s u idStr = .err .selfReference s := by
  subst hself
  unfold subscribeAdd subscribeAddPhased
  simp [hn, ht]

/-- Witness for C5: in `baseState`, user 1 subscribing to id "1" (their
own id) gets the SelfReference error and the state is unchanged. -/
theorem subscribe_self_reference_witness :
    subscribeAdd baseState 1 "1" = .err .selfReference baseState :=
  subscribe_self_reference baseState 1 "1" 1 ⟨1, "u", "u@example.com"⟩
    (by decide) (by decide) (by decide)

/-- A recipe found by `findRecipe` carries the queried id. -/
theorem findRecipe_id (s : State) (n : Int) (r : Recipe)
    (h : findRecipe s n = some r) : (r.id : Int) = n := by
  unfold findRecipe at h
  have hp := List.find?_some h
  simp only [beq_iff_eq] at hp
  exact hp

/-- The boolean `contains` agrees with membership on pair lists. -/
theorem contains_true_iff (l : List (Nat × Nat)) (x : Nat × Nat) :
    l.contains x = true ↔ x ∈ l :=
  List.elem_iff

/-- The coerced-id membership test of the cart-add view agrees with
plain membership of the (user, recipe id) pair. -/
theorem any_key_eq_contains (l : List (Nat × Nat)) (u rid : Nat) :
    (l.any fun c => c.1 == u && ((c.2 : Int) == ((rid : Nat) : Int))) =
      l.contains (u, rid) := by
  induction l with
  | nil => rfl
  | cons c t ih =>
    rw [List.any_cons, List.contains_cons, ih]
    congr 1
    rcases c with ⟨a, b⟩
    rw [Bool.eq_iff_iff]
    simp
    omega

/-- C2: for a user and an existing recipe with no prior relation row,
adding to favorites succeeds on the first call (appending exactly the
one row and returning the compact id/name/image/cooking_time
projection) and fails with AlreadyExists on the second call without
changing the state; the same holds for the cart. -/
theorem add_twice_second_already_exists (s : State) (u : Nat) (pk : String)
    (n : Int) (r : Recipe)
    (hn : pyInt pk = some n)
    (hr : findRecipe s n = some r)
    (hfav : (u, r.id) ∉ s.favorites)
    (hcart : (u, r.id) ∉ s.cart) :
    favoriteAdd s u pk =
      .ok (recipeProj r) { s with favorites := s.favorites ++ [(u, r.id)] } ∧
    favoriteAdd { s with favorites := s.favorites ++ [(u, r.id)] } u pk =
      .err .alreadyExists { s with favorites := s.favorites ++ [(u, r.id)] } ∧
    shoppingCartAdd s u pk =
      .ok (recipeProj r) { s with cart := s.cart ++ [(u, r.id)] } ∧
    shoppingCartAdd { s with cart := s.cart ++ [(u, r.id)] } u pk =
      .err .alreadyExists { s with cart := s.cart ++ [(u, r.id)] } := by
  have hid := findRecipe_id s n r hr
  subst hid
  have hfr : findRecipe { s with favorites := s.favorites ++ [(u, r.id)] }
      ((r.id : Nat) : Int) = some r := hr
  have hcr : findRecipe { s with cart := s.cart ++ [(u, r.id)] }
      ((r.id : Nat) : Int) = some r := hr
  refine ⟨?_, ?_, ?_, ?_⟩
  · unfold favoriteAdd favoriteAddPhased
    simp [hn, hr, hfav]
  · unfold favoriteAdd favoriteAddPhased
    simp [hn, hfr]
  · unfold shoppingCartAdd shoppingCartAddPhased
    simp only [hn, any_key_eq_contains]
    simp [hr, hcart]
  · unfold shoppingCartAdd shoppingCartAddPhased
    simp only [hn, any_key_eq_contains]
    simp [hcr]

/-- Witness for C2: in `baseState` (recipe 1 exists, no relation rows)
the first favorite/cart add succeeds inserting one row and the repeat
fails with AlreadyExists leaving the state of the first call. -/
theorem add_twice_second_already_exists_witness :
    favoriteAdd baseState 1 "1" =
      .ok (recipeProj ⟨1, "A", "", 5, "a.png", 1⟩)
        { baseState with favorites := [(1, 1)] } ∧
    favoriteAdd { baseState with favorites := [(1, 1)] } 1 "1" =
      .err .alreadyExists { baseState with favorites := [(1, 1)] } ∧
    shoppingCartAdd baseState 1 "1" =
      .ok (recipeProj ⟨1, "A", "", 5, "a.png", 1⟩)
        { baseState with cart := [(1, 1)] } ∧
    shoppingCartAdd { baseState with cart := [(1, 1)] } 1 "1" =
      .err .alreadyExists { baseState with cart := [(1, 1)] } :=
  add_twice_second_already_exists baseState 1 "1" 1 ⟨1, "A", "", 5, "a.png", 1⟩
    (by decide) (by decide) (by decide) (by decide)

/-- C3: removing a favorite (resp. cart) row fails with NotFound when
the recipe does not exist and with NotPresent when the recipe exists
but the user has no relation row, changing no state in either case;
when a row exists it deletes exactly that one row. -/
theorem remove_relation_spec (s : State) (u : Nat) (pk : String) (n : Int)
    (hn : pyInt pk = some n) :
    (findRecipe s n = none →
       deleteFavorite s u pk = .err .notFound s ∧
       deleteShoppingCart s u pk = .err .notFound s) ∧
    (∀ r, findRecipe s n = some r →
       ((u, r.id) ∉ s.favorites →
          deleteFavorite s u pk = .err .notPresent s) ∧
       ((u, r.id) ∈ s.favorites →
          deleteFavorite s u pk =
            .ok () { s with favorites := s.favorites.erase (u, r.id) } ∧
          (s.favorites.erase (u, r.id)).length = s.favorites.length - 1) ∧
       ((u, r.id) ∉ s.cart →
          deleteShoppingCart s u pk = .err .notPresent s) ∧
       ((u, r.id) ∈ s.cart →
          deleteShoppingCart s u pk =
            .ok () { s with cart := s.cart.erase (u, r.id) } ∧
          (s.cart.erase (u, r.id)).length = s.cart.length - 1)) := by
  constructor
  · intro h0
    unfold deleteFavorite deleteShoppingCart
    simp [hn, h0]
  · intro r hr
    refine ⟨?_, ?_, ?_, ?_⟩
    · intro hno
      unfold deleteFavorite
      simp [hn, hr, hno]
    · intro hyes
      refine ⟨?_, List.length_erase_of_mem hyes⟩
      unfold deleteFavorite
      simp [hn, hr, hyes]
    · intro hno
      unfold deleteShoppingCart
      simp [hn, hr, hno]
    · intro hyes
      refine ⟨?_, List.length_erase_of_mem hyes⟩
      unfold deleteShoppingCart
      simp [hn, hr, hyes]

/-- Witness for C3: in `saltState` user 1 removing recipe id "9" gets
NotFound, removing recipe "1" from favorites gets NotPresent (no state
change), and removing recipe "1" from the cart deletes exactly its one
row. -/
theorem remove_relation_spec_witness :
    (deleteFavorite saltState 1 "9" = .err .notFound saltState ∧
       deleteShoppingCart saltState 1 "9" = .err .notFound saltState) ∧
    (deleteFavorite saltState 1 "1" = .err .notPresent saltState) ∧
    (deleteShoppingCart saltState 1 "1" =
       .ok () { saltState with cart := [(1, 2)] } ∧
     ([(1, 1), (1, 2)].erase ((1 : Nat), (1 : Nat))).length =
       [(1, 1), (1, 2)].length - 1) := by
  refine ⟨(remove_relation_spec saltState 1 "9" 9 (by decide)).1 (by decide),
    ((remove_relation_spec saltState 1 "1" 1 (by decide)).2
       ⟨1, "A", "", 5, "a.png", 1⟩ (by decide)).1 (by decide), ?_⟩
  have h := (((remove_relation_spec saltState 1 "1" 1 (by decide)).2
    ⟨1, "A", "", 5, "a.png", 1⟩ (by decide)).2.2.2 (by decide))
  exact ⟨by rw [h.1]; decide, h.2⟩

/-- C10: for every id string on which the integer conversion fails, the
favorite add/remove operations, the cart remove operation, and the
follow add/remove operations end in the unhandled ValueError crash (so
they never reach the existence check and never return NotFound), with
the state unchanged. -/
theorem non_integer_id_crashes (s : State) (u : Nat) (pk : String)
    (h : pyInt pk = none) :
    favoriteAdd s u pk = .crash .valueError s ∧
    deleteFavorite s u pk = .crash .valueError s ∧
    deleteShoppingCart s u pk = .crash .valueError s ∧
    subscribeAdd s u pk = .crash .valueError s ∧
    deleteSubscribe s u pk = .crash .valueError s := by
  unfold favoriteAdd favoriteAddPhased deleteFavorite deleteShoppingCart
    subscribeAdd subscribeAddPhased deleteSubscribe
  rw [h]
  exact ⟨rfl, rfl, rfl, rfl, rfl⟩

/-- Witness for C10: the id string "abc" is not a decimal integer and
all five operations crash with the uncaught ValueError. -/
theorem non_integer_id_crashes_witness :
    favoriteAdd baseState 1 "abc" = .crash .valueError baseState ∧
    deleteFavorite baseState 1 "abc" = .crash .valueError baseState ∧
    deleteShoppingCart baseState 1 "abc" = .crash .valueError baseState ∧
    subscribeAdd baseState 1 "abc" = .crash .valueError baseState ∧
    deleteSubscribe baseState 1 "abc" = .crash .valueError baseState :=
  non_integer_id_crashes baseState 1 "abc" (by decide)

/-- A `find?` by id succeeds and returns a record with that id whenever
some record of the list carries the id. -/
theorem find_by_id_of_exists {α : Type} (f : α → Nat) (l : List α) (e : Nat)
    (hex : ∃ i ∈ l, f i = e) :
    ∃ x, l.find? (fun i => f i == e) = some x ∧ f x = e := by
  have hs : (l.find? (fun i => f i == e)).isSome = true := by
    rw [List.find?_isSome]
    obtain ⟨i, hi, he⟩ := hex
    exact ⟨i, hi, by simp [he]⟩
  obtain ⟨x, hx⟩ := Option.isSome_iff_exists.mp hs
  refine ⟨x, hx, ?_⟩
  have hp := List.find?_some hx
  simpa using hp

/-- The ingredient loop accepts a list of existing, pairwise-distinct
ingredient ids (relative to the already seen ids). -/
theorem validateIngLoop_ok (s : State) (l : List IngEntry) (seen : List Nat)
    (hex : ∀ e ∈ l, ∃ i ∈ s.ingredients, i.id = e.ingredient)
    (hnd : (seen ++ l.map (fun e => e.ingredient)).Nodup) :
    validateIngLoop s l seen = .ok () := by
  induction l generalizing seen with
  | nil => rfl
  | cons e rest ih =>
    obtain ⟨ing, hfind, hid⟩ :=
      find_by_id_of_exists Ingredient.id s.ingredients e.ingredient
        (hex e (by simp))
    unfold validateIngLoop
    have hnotin : e.ingredient ∉ seen := by
      rw [List.nodup_append] at hnd
      exact fun hmem => hnd.2.2 hmem (by simp)
    have hc : seen.contains ing.id = false := by
      rw [hid]
      simp [List.elem_iff, hnotin]
    simp only [hfind, hc, Bool.false_eq_true, if_false]
    refine ih (seen ++ [ing.id]) (fun x hx => hex x (by simp [hx])) ?_
    rw [hid, List.append_assoc, List.singleton_append]
    simpa using hnd

/-- The ingredient loop rejects a list of existing ingredient ids
containing a repeat (relative to distinct already seen ids) with the
duplicate-ingredient error. -/
theorem validateIngLoop_dup (s : State) (l : List IngEntry) (seen : List Nat)
    (hseen : seen.Nodup)
    (hex : ∀ e ∈ l, ∃ i ∈ s.ingredients, i.id = e.ingredient)
    (hnd : ¬ (seen ++ l.map (fun e => e.ingredient)).Nodup) :
    validateIngLoop s l seen = .error .duplicateIngredient := by
  induction l generalizing seen with
  | nil => simp at hnd; exact absurd hseen hnd
  | cons e rest ih =>
    obtain ⟨ing, hfind, hid⟩ :=
      find_by_id_of_exists Ingredient.id s.ingredients e.ingredient
        (hex e (by simp))
    unfold validateIngLoop
    by_cases hmem : e.ingredient ∈ seen
    · have hc : seen.contains ing.id = true := by
        rw [hid]
        simp [List.elem_iff, hmem]
      simp only [hfind, hc]
      rfl
    · have hc : seen.contains ing.id = false := by
        rw [hid]
        simp [List.elem_iff, hmem]
      simp only [hfind, hc, Bool.false_eq_true, if_false]
      refine ih (seen ++ [ing.id]) ?_ (fun x hx => hex x (by simp [hx])) ?_
      · rw [hid]
        rw [List.nodup_append]
        refine ⟨hseen, by simp, ?_⟩
        rw [List.disjoint_left]
        intro a ha hae
        rw [List.mem_singleton] at hae
        exact hmem (hae ▸ ha)
      · rw [hid, List.append_assoc, List.singleton_append]
        simpa using hnd

/-- The tag loop accepts a list of existing, pairwise-distinct tag ids. -/
theorem validateTagLoop_ok (s : State) (l : List Nat) (seen : List Nat)
    (hex : ∀ t ∈ l, ∃ tg ∈ s.tags, tg.id = t)
    (hnd : (seen ++ l).Nodup) :
    validateTagLoop s l seen = .ok () := by
  induction l generalizing seen with
  | nil => rfl
  | cons t rest ih =>
    obtain ⟨tg, hfind, hid⟩ :=
      find_by_id_of_exists Tag.id s.tags t (hex t (by simp))
    unfold validateTagLoop
    have hnotin : t ∉ seen := by
      rw [List.nodup_append] at hnd
      exact fun hmem => hnd.2.2 hmem (by simp)
    have hc : seen.contains tg.id = false := by
      rw [hid]
      simp [List.elem_iff, hnotin]
    simp only [hfind, hc, Bool.false_eq_true, if_false]
    refine ih (seen ++ [tg.id]) (fun x hx => hex x (by simp [hx])) ?_
    rw [hid, List.append_assoc, List.singleton_append]
    simpa using hnd

/-- Field-level pk resolution of the ingredient list succeeds exactly
when every referenced id exists. -/
theorem resolveIngredients_ok (s : State) (l : List IngEntry)
    (hex : ∀ e ∈ l, ∃ i ∈ s.ingredients, i.id = e.ingredient) :
    resolveIngredients s l = .ok () := by
  unfold resolveIngredients
  have : l.all (fun e => s.ingredients.any (fun i => i.id == e.ingredient)) =
      true := by
    rw [List.all_eq_true]
    intro e he
    rw [List.any_eq_true]
    obtain ⟨i, hi, hid⟩ := hex e he
    exact ⟨i, hi, by simp [hid]⟩
  rw [this]
  simp

/-- Field-level pk resolution of the ingredient list fails with the
unknown-ingredient error when some referenced id does not exist. -/
theorem resolveIngredients_err (s : State) (l : List IngEntry)
    (hbad : ∃ e ∈ l, ∀ i ∈ s.ingredients, i.id ≠ e.ingredient) :
    resolveIngredients s l = .error .unknownIngredient := by
  unfold resolveIngredients
  have : l.all (fun e => s.ingredients.any (fun i => i.id == e.ingredient)) =
      false := by
    obtain ⟨e, he, hno⟩ := hbad
    rw [← Bool.not_eq_true, List.all_eq_true]
    intro hall
    have := hall e he
    rw [List.any_eq_true] at this
    obtain ⟨i, hi, hid⟩ := this
    exact hno i hi (by simpa using hid)
  rw [this]
  simp

/-- Field-level pk resolution of the tag list succeeds exactly when
every referenced id exists. -/
theorem resolveTags_ok (s : State) (l : List Nat)
    (hex : ∀ t ∈ l, ∃ tg ∈ s.tags, tg.id = t) :
    resolveTags s l = .ok () := by
  unfold resolveTags
  have : l.all (fun t => s.tags.any (fun tg => tg.id == t)) = true := by
    rw [List.all_eq_true]
    intro t ht
    rw [List.any_eq_true]
    obtain ⟨tg, htg, hid⟩ := hex t ht
    exact ⟨tg, htg, by simp [hid]⟩
  rw [this]
  simp

/-- The whole validation pipeline accepts non-empty, duplicate-free
lists of existing ingredient and tag ids and returns them unchanged. -/
theorem runValidation_ok (s : State) (ings : List IngEntry) (tgs : List Nat)
    (hne : ings ≠ []) (htne : tgs ≠ [])
    (hex : ∀ e ∈ ings, ∃ i ∈ s.ingredients, i.id = e.ingredient)
    (htex : ∀ t ∈ tgs, ∃ tg ∈ s.tags, tg.id = t)
    (hnd : (ings.map (fun e => e.ingredient)).Nodup)
    (htnd : tgs.Nodup) :
    runValidation s (some ings) (some tgs) = .ok (ings, tgs) := by
  have h1 : ings.isEmpty = false := by
    cases ings with
    | nil => exact absurd rfl hne
    | cons a t => rfl
  have h2 : tgs.isEmpty = false := by
    cases tgs with
    | nil => exact absurd rfl htne
    | cons a t => rfl
  unfold runValidation
  simp only [resolveIngredients_ok s ings hex, resolveTags_ok s tgs htex,
    h1, h2, Bool.or_false, Bool.false_eq_true, if_false,
    validateIngLoop_ok s ings [] hex (by simpa using hnd),
    validateTagLoop_ok s tgs [] htex (by simpa using htnd)]

/-- Counterexample to C6 as stated: a recipe write whose ingredient
list names the same ingredient id (99) in two entries, where id 99 does
not exist, is rejected with the unknown-ingredient error — not with
DuplicateIngredient as the claim requires for every duplicated id —
because the pk-resolution of the ingredient field runs before the
duplicate check.  No rows are inserted either way. -/
theorem duplicate_unknown_ingredient_counterexample :
    recipeCreate baseState 1
      ⟨some [⟨99, 1⟩, ⟨99, 2⟩], some [1], "X", "", 5, "x.png"⟩ =
      .err .unknownIngredient baseState ∧
    recipeCreate baseState 1
      ⟨some [⟨99, 1⟩, ⟨99, 2⟩], some [1], "X", "", 5, "x.png"⟩ ≠
      .err .duplicateIngredient baseState := by
  exact ⟨by decide, by decide⟩

/-- The whole validation pipeline rejects a present, non-empty pair of
lists whose ingredient ids all exist but repeat, with the
duplicate-ingredient error. -/
theorem runValidation_dup (s : State) (ings : List IngEntry)
    (tgs : List Nat)
    (hne : ings ≠ []) (htne : tgs ≠ [])
    (hex : ∀ e ∈ ings, ∃ i ∈ s.ingredients, i.id = e.ingredient)
    (htex : ∀ t ∈ tgs, ∃ tg ∈ s.tags, tg.id = t)
    (hnd : ¬ (ings.map (fun e => e.ingredient)).Nodup) :
    runValidation s (some ings) (some tgs) = .error .duplicateIngredient := by
  have h1 : ings.isEmpty = false := by
    cases ings with
    | nil => exact absurd rfl hne
    | cons a t => rfl
  have h2 : tgs.isEmpty = false := by
    cases tgs with
    | nil => exact absurd rfl htne
    | cons a t => rfl
  unfold runValidation
  simp only [resolveIngredients_ok s ings hex, resolveTags_ok s tgs htex,
    h1, h2, Bool.or_false, Bool.false_eq_true, if_false,
    validateIngLoop_dup s ings [] List.nodup_nil hex (by simpa using hnd)]

/-- C6 (amended): a recipe write fails with MissingFields when either
list is absent; with UnknownIngredient when the lists are present and a
referenced ingredient id does not exist (this takes precedence over the
duplicate check, which is what the counterexample forces); with
MissingFields when the lists are present and resolvable but one is
empty; and with DuplicateIngredient when the lists are present,
non-empty and resolvable and the same ingredient id appears in two
entries.  In every case the state is unchanged: no recipe, association
or tag rows are inserted. -/
theorem recipe_write_validation_errors (s : State) (a : Nat)
    (inp : RecipeInput) :
    ((inp.ingredients = none ∨ inp.tags = none) →
       recipeCreate s a inp = .err .missingFields s) ∧
    (∀ ings tgs, inp.ingredients = some ings → inp.tags = some tgs →
       (∃ e ∈ ings, ∀ i ∈ s.ingredients, i.id ≠ e.ingredient) →
       recipeCreate s a inp = .err .unknownIngredient s) ∧
    (∀ ings tgs, inp.ingredients = some ings → inp.tags = some tgs →
       (∀ e ∈ ings, ∃ i ∈ s.ingredients, i.id = e.ingredient) →
       (∀ t ∈ tgs, ∃ tg ∈ s.tags, tg.id = t) →
       (ings = [] ∨ tgs = []) →
       recipeCreate s a inp = .err .missingFields s) ∧
    (∀ ings tgs, inp.ingredients = some ings → inp.tags = some tgs →
       (∀ e ∈ ings, ∃ i ∈ s.ingredients, i.id = e.ingredient) →
       (∀ t ∈ tgs, ∃ tg ∈ s.tags, tg.id = t) →
       ings ≠ [] → tgs ≠ [] →
       ¬ (ings.map (fun e => e.ingredient)).Nodup →
       recipeCreate s a inp = .err .duplicateIngredient s) := by
  refine ⟨?_, ?_, ?_, ?_⟩
  · intro h
    unfold recipeCreate runValidation
    rcases h with h | h
    · rw [h]
    · rw [h]
      cases inp.ingredients <;> rfl
  · intro ings tgs hi ht hbad
    unfold recipeCreate runValidation
    rw [hi, ht]
    simp only [resolveIngredients_err s ings hbad]
  · intro ings tgs hi ht hex htex hemp
    unfold recipeCreate runValidation
    rw [hi, ht]
    simp only [resolveIngredients_ok s ings hex, resolveTags_ok s tgs htex]
    rcases hemp with h | h <;> subst h <;> simp
  · intro ings tgs hi ht hex htex hne htne hnd
    unfold recipeCreate
    rw [hi, ht, runValidation_dup s ings tgs hne htne hex htex hnd]

/-- Witness for the amended C6: in `baseState`, a write repeating the
existing ingredient id 1 fails with DuplicateIngredient, a write with an
absent tag list fails with MissingFields, a write with an empty
(resolvable) ingredient list fails with MissingFields, and a write
naming the unknown id 99 once fails with UnknownIngredient — all
leaving the state unchanged. -/
theorem recipe_write_validation_errors_witness :
    recipeCreate baseState 1
      ⟨some [⟨1, 2⟩, ⟨1, 3⟩], some [1], "X", "", 5, "x.png"⟩ =
      .err .duplicateIngredient baseState ∧
    recipeCreate baseState 1 ⟨some [⟨1, 2⟩], none, "X", "", 5, "x.png"⟩ =
      .err .missingFields baseState ∧
    recipeCreate baseState 1 ⟨some [], some [1], "X", "", 5, "x.png"⟩ =
      .err .missingFields baseState ∧
    recipeCreate baseState 1
      ⟨some [⟨99, 1⟩], some [1], "X", "", 5, "x.png"⟩ =
      .err .unknownIngredient baseState := by
  refine ⟨(recipe_write_validation_errors baseState 1 _).2.2.2
      [⟨1, 2⟩, ⟨1, 3⟩] [1] rfl rfl (by decide) (by decide) (by decide)
      (by decide) (by decide),
    (recipe_write_validation_errors baseState 1 _).1 (Or.inr rfl),
    (recipe_write_validation_errors baseState 1 _).2.2.1
      [] [1] rfl rfl (by decide) (by decide) (Or.inl rfl),
    (recipe_write_validation_errors baseState 1 _).2.1
      [⟨99, 1⟩] [1] rfl rfl ⟨⟨99, 1⟩, by decide, by decide⟩⟩

/-- C8: a successful update of an existing recipe replaces its
ingredient and tag associations wholesale with the validated input
lists (clear-then-reinsert), and the association rows of every other
recipe are untouched. -/
theorem recipe_update_replaces_associations (s : State) (rid : Nat)
    (inp : RecipeInput) (ings : List IngEntry) (tgs : List Nat)
    (hrid : rid ∈ s.recipes.map (fun r => r.id))
    (hok : runValidation s inp.ingredients inp.tags = .ok (ings, tgs)) :
    ∃ s2, recipeUpdate s rid inp = .ok rid s2 ∧
      s2.ingredientRecipes.filter (fun ir => ir.recipe == rid) =
        assocRowsFor rid ings ∧
      s2.tagRecipes.filter (fun tr => tr.recipe == rid) =
        tagRowsFor rid tgs ∧
      (∀ rid2, rid2 ≠ rid →
        s2.ingredientRecipes.filter (fun ir => ir.recipe == rid2) =
          s.ingredientRecipes.filter (fun ir => ir.recipe == rid2) ∧
        s2.tagRecipes.filter (fun tr => tr.recipe == rid2) =
          s.tagRecipes.filter (fun tr => tr.recipe == rid2)) := by
  refine ⟨{ s with
      recipes := s.recipes.map (fun r =>
        if r.id == rid then
          { r with name := inp.name, text := inp.text,
                   cooking_time := inp.cooking_time, image := inp.image }
        else r),
      ingredientRecipes :=
        (s.ingredientRecipes.filter (fun ir => ir.recipe != rid)) ++
          assocRowsFor rid ings,
      tagRecipes :=
        (s.tagRecipes.filter (fun tr => tr.recipe != rid)) ++
          tagRowsFor rid tgs }, ?_, ?_, ?_, ?_⟩
  · unfold recipeUpdate
    simp only [hok]
  · rw [List.filter_append, List.filter_filter]
    have h1 : List.filter
        (fun ir => ir.recipe == rid && (ir.recipe != rid))
        s.ingredientRecipes = [] := by
      rw [List.filter_congr (q := fun _ => false) ?_, List.filter_false]
      intro ir _
      by_cases hx : ir.recipe = rid <;> simp [hx]
    have h2 : (assocRowsFor rid ings).filter
        (fun ir => ir.recipe == rid) = assocRowsFor rid ings := by
      apply List.filter_eq_self.mpr
      intro x hx
      obtain ⟨e, _, he⟩ := List.mem_map.mp hx
      rw [← he]
      simp
    rw [h1, h2, List.nil_append]
  · rw [List.filter_append, List.filter_filter]
    have h1 : List.filter
        (fun tr => tr.recipe == rid && (tr.recipe != rid))
        s.tagRecipes = [] := by
      rw [List.filter_congr (q := fun _ => false) ?_, List.filter_false]
      intro tr _
      by_cases hx : tr.recipe = rid <;> simp [hx]
    have h2 : (tagRowsFor rid tgs).filter
        (fun tr => tr.recipe == rid) = tagRowsFor rid tgs := by
      apply List.filter_eq_self.mpr
      intro x hx
      obtain ⟨t, _, ht⟩ := List.mem_map.mp hx
      rw [← ht]
      simp
    rw [h1, h2, List.nil_append]
  · intro rid2 hne
    constructor
    · rw [List.filter_append, List.filter_filter]
      have h1 : List.filter
          (fun ir => ir.recipe == rid2 && (ir.recipe != rid))
          s.ingredientRecipes =
          s.ingredientRecipes.filter (fun ir => ir.recipe == rid2) := by
        apply List.filter_congr
        intro ir _
        by_cases hx : ir.recipe = rid2 <;> simp [hx, hne]
      have h2 : (assocRowsFor rid ings).filter
          (fun ir => ir.recipe == rid2) = [] := by
        apply List.filter_eq_nil_iff.mpr
        intro x hx
        obtain ⟨e, _, he⟩ := List.mem_map.mp hx
        rw [← he]
        simp
        exact fun hh => hne hh.symm
      rw [h1, h2, List.append_nil]
    · rw [List.filter_append, List.filter_filter]
      have h1 : List.filter
          (fun tr => tr.recipe == rid2 && (tr.recipe != rid))
          s.tagRecipes =
          s.tagRecipes.filter (fun tr => tr.recipe == rid2) := by
        apply List.filter_congr
        intro tr _
        by_cases hx : tr.recipe = rid2 <;> simp [hx, hne]
      have h2 : (tagRowsFor rid tgs).filter
          (fun tr => tr.recipe == rid2) = [] := by
        apply List.filter_eq_nil_iff.mpr
        intro x hx
        obtain ⟨t, _, ht⟩ := List.mem_map.mp hx
        rw [← ht]
        simp
        exact fun hh => hne hh.symm
      rw [h1, h2, List.append_nil]

/-- Witness for C8: updating recipe 1 of `updState` with the single
ingredient entry (1, 7) and tag 1 replaces recipe 1's associations and
leaves recipe 2's untouched. -/
theorem recipe_update_replaces_associations_witness :
    ∃ s2, recipeUpdate updState 1
        ⟨some [⟨1, 7⟩], some [1], "A2", "", 6, "a2.png"⟩ = .ok 1 s2 ∧
      s2.ingredientRecipes.filter (fun ir => ir.recipe == 1) =
        assocRowsFor 1 [⟨1, 7⟩] ∧
      s2.tagRecipes.filter (fun tr => tr.recipe == 1) = tagRowsFor 1 [1] ∧
      (∀ rid2, rid2 ≠ 1 →
        s2.ingredientRecipes.filter (fun ir => ir.recipe == rid2) =
          updState.ingredientRecipes.filter (fun ir => ir.recipe == rid2) ∧
        s2.tagRecipes.filter (fun tr => tr.recipe == rid2) =
          updState.tagRecipes.filter (fun tr => tr.recipe == rid2)) :=
  recipe_update_replaces_associations updState 1
    ⟨some [⟨1, 7⟩], some [1], "A2", "", 6, "a2.png"⟩ [⟨1, 7⟩] [1]
    (by decide) (by rfl)

/-- Every member of a list of naturals is bounded by the fold of `max`
over the list. -/
theorem mem_le_foldr_max (l : List Nat) (x : Nat) (h : x ∈ l) :
    x ≤ l.foldr max 0 := by
  induction l with
  | nil => cases h
  | cons a t ih =>
    rcases List.mem_cons.mp h with h | h
    · subst h
      exact le_max_left _ _
    · exact le_trans (ih h) (le_max_right _ _)

/-- Reading back the associations of a freshly assigned recipe id after
appending its bulk-created rows yields exactly the written
(ingredient, amount) pairs. -/
theorem readAssoc_append (l : List IngredientRecipe) (rid : Nat)
    (ings : List IngEntry)
    (hfresh : ∀ ir ∈ l, ir.recipe ≠ rid) :
    ((l ++ assocRowsFor rid ings).filter
        (fun ir => ir.recipe == rid)).map
      (fun ir => (ir.ingredient, ir.amount)) =
      ings.map (fun e => (e.ingredient, e.amount)) := by
  rw [List.filter_append]
  have h1 : l.filter (fun ir => ir.recipe == rid) = [] := by
    apply List.filter_eq_nil_iff.mpr
    intro ir hir
    simpa using hfresh ir hir
  have h2 : (assocRowsFor rid ings).filter (fun ir => ir.recipe == rid) =
      assocRowsFor rid ings := by
    apply List.filter_eq_self.mpr
    intro x hx
    obtain ⟨e, _, he⟩ := List.mem_map.mp hx
    rw [← he]
    simp
  rw [h1, h2, List.nil_append]
  unfold assocRowsFor
  rw [List.map_map]
  rfl

/-- A successful recipe create returns the fresh id and a state whose
read-back association list for that id is exactly the validated
ingredient list. -/
theorem recipeCreate_read (s : State) (a : Nat) (inp : RecipeInput)
    (ings : List IngEntry) (tgs : List Nat)
    (hfk : ∀ ir ∈ s.ingredientRecipes, ∃ r ∈ s.recipes, ir.recipe = r.id)
    (hi : inp.ingredients = some ings) (ht : inp.tags = some tgs)
    (hne : ings ≠ []) (htne : tgs ≠ [])
    (hex : ∀ e ∈ ings, ∃ i ∈ s.ingredients, i.id = e.ingredient)
    (htex : ∀ t ∈ tgs, ∃ tg ∈ s.tags, tg.id = t)
    (hnd : (ings.map (fun e => e.ingredient)).Nodup)
    (htnd : tgs.Nodup) :
    ∃ s2, recipeCreate s a inp = .ok (nextRecipeId s) s2 ∧
      readAssociations s2 (nextRecipeId s) =
        ings.map (fun e => (e.ingredient, e.amount)) := by
  have hfresh : ∀ ir ∈ s.ingredientRecipes, ir.recipe ≠ nextRecipeId s := by
    intro ir hir
    obtain ⟨r, hr, he⟩ := hfk ir hir
    have hle : r.id ≤ (s.recipes.map (fun r => r.id)).foldr max 0 :=
      mem_le_foldr_max _ _ (List.mem_map_of_mem _ hr)
    unfold nextRecipeId
    omega
  refine ⟨{ s with
      recipes := s.recipes ++
        [⟨nextRecipeId s, inp.name, inp.text, inp.cooking_time,
          inp.image, a⟩],
      tagRecipes := s.tagRecipes ++ tagRowsFor (nextRecipeId s) tgs,
      ingredientRecipes := s.ingredientRecipes ++
        assocRowsFor (nextRecipeId s) ings }, ?_, ?_⟩
  · unfold recipeCreate
    rw [hi, ht]
    simp only [runValidation_ok s ings tgs hne htne hex htex hnd htnd]
  · unfold readAssociations
    exact readAssoc_append s.ingredientRecipes (nextRecipeId s) ings hfresh

/-- C7: a valid recipe write (present, non-empty, duplicate-free lists
of existing ingredient and tag ids) reads back an association list
equal, as a multiset, to the written (ingredient, amount) pairs; and
writing any permutation of the ingredient list reads back a multiset
equal to the same pairs, so the result is independent of submission
order. -/
theorem recipe_create_round_trip (s : State) (a : Nat) (inp : RecipeInput)
    (ings : List IngEntry) (tgs : List Nat)
    (hfk : ∀ ir ∈ s.ingredientRecipes, ∃ r ∈ s.recipes, ir.recipe = r.id)
    (hi : inp.ingredients = some ings) (ht : inp.tags = some tgs)
    (hne : ings ≠ []) (htne : tgs ≠ [])
    (hex : ∀ e ∈ ings, ∃ i ∈ s.ingredients, i.id = e.ingredient)
    (htex : ∀ t ∈ tgs, ∃ tg ∈ s.tags, tg.id = t)
    (hnd : (ings.map (fun e => e.ingredient)).Nodup)
    (htnd : tgs.Nodup) :
    (∃ s2, recipeCreate s a inp = .ok (nextRecipeId s) s2 ∧
       (readAssociations s2 (nextRecipeId s)).Perm
         (ings.map (fun e => (e.ingredient, e.amount)))) ∧
    (∀ ings2, ings2.Perm ings →
       ∃ s2, recipeCreate s a
           { inp with ingredients := some ings2 } =
           .ok (nextRecipeId s) s2 ∧
         (readAssociations s2 (nextRecipeId s)).Perm
           (ings.map (fun e => (e.ingredient, e.amount)))) := by
  constructor
  · obtain ⟨s2, h1, h2⟩ :=
      recipeCreate_read s a inp ings tgs hfk hi ht hne htne hex htex hnd htnd
    refine ⟨s2, h1, ?_⟩
    rw [h2]
  · intro ings2 hperm
    have hne2 : ings2 ≠ [] := by
      intro hnil
      subst hnil
      exact hne hperm.symm.eq_nil
    have hex2 : ∀ e ∈ ings2, ∃ i ∈ s.ingredients, i.id = e.ingredient :=
      fun e he => hex e (hperm.mem_iff.mp he)
    have hnd2 : (ings2.map (fun e => e.ingredient)).Nodup :=
      ((hperm.map (fun e => e.ingredient)).nodup_iff).mpr hnd
    obtain ⟨s2, h1, h2⟩ :=
      recipeCreate_read s a { inp with ingredients := some ings2 } ings2 tgs
        hfk rfl ht hne2 htne hex2 htex hnd2 htnd
    exact ⟨s2, h1, by rw [h2]; exact hperm.map _⟩

/-- Witness for C7: writing ingredients [(1,2),(1002,3)] (salt and
pepper) in either order into `rtState` reads back the same multiset of
(ingredient, amount) pairs. -/
theorem recipe_create_round_trip_witness :
    (∃ s2, recipeCreate rtState 1
        ⟨some [⟨1, 2⟩, ⟨1002, 3⟩], some [1], "X", "", 5, "x.png"⟩ =
        .ok (nextRecipeId rtState) s2 ∧
      (readAssociations s2 (nextRecipeId rtState)).Perm
        [(1, 2), (1002, 3)]) ∧
    (∀ ings2, ings2.Perm [⟨1, 2⟩, ⟨1002, 3⟩] →
       ∃ s2, recipeCreate rtState 1
           ⟨some ings2, some [1], "X", "", 5, "x.png"⟩ =
           .ok (nextRecipeId rtState) s2 ∧
         (readAssociations s2 (nextRecipeId rtState)).Perm
           [(1, 2), (1002, 3)]) :=
  recipe_create_round_trip rtState 1
    ⟨some [⟨1, 2⟩, ⟨1002, 3⟩], some [1], "X", "", 5, "x.png"⟩
    [⟨1, 2⟩, ⟨1002, 3⟩] [1]
    (by decide) rfl rfl (by decide) (by decide) (by decide) (by decide)
    (by decide) (by decide)

/-- Counterexample to C9 as stated: with the existence check evaluated
against `baseState` (cart empty) and the insert executed after a
concurrent request has committed the cart row (1, 1), the loser's
insert is rejected by the `unique_cart` constraint and the view lets
the IntegrityError propagate — the call does not produce the handled
AlreadyExists response the claim requires. -/
theorem raced_duplicate_insert_counterexample :
    shoppingCartAddPhased baseState
      { baseState with cart := [(1, 1)] } 1 "1" =
      .crash .integrityError { baseState with cart := [(1, 1)] } ∧
    shoppingCartAddPhased baseState
      { baseState with cart := [(1, 1)] } 1 "1" ≠
      .err .alreadyExists { baseState with cart := [(1, 1)] } := by
  exact ⟨by decide, by decide⟩

/-- C9 (amended): when the duplicate (user, recipe) or (user, following)
insert of the loser of a race is rejected by the storage uniqueness
constraint, the service layer does NOT catch the storage error: the
IntegrityError propagates as an unhandled crash (rather than being
translated into the AlreadyExists failure), and no row is inserted.
Only duplicates already visible to the pre-insert existence check are
reported as AlreadyExists. -/
theorem raced_duplicate_insert_crashes (s1 s2 : State) (u : Nat)
    (pk : String) (n : Int)
    (hn : pyInt pk = some n) :
    (∀ r, findRecipe s1 n = some r →
       (u, r.id) ∉ s1.favorites →
       (u, r.id) ∈ s2.favorites →
       favoriteAddPhased s1 s2 u pk = .crash .integrityError s2) ∧
    (∀ r2, findRecipe s1 n ≠ none →
       (u, r2.id) ∉ s1.cart →
       findRecipe s2 n = some r2 →
       (u, r2.id) ∈ s2.cart →
       shoppingCartAddPhased s1 s2 u pk = .crash .integrityError s2) ∧
    (∀ t, findUser s1 n = some t →
       u ≠ t.id →
       (u, t.id) ∉ s1.follows →
       (u, t.id) ∈ s2.follows →
       subscribeAddPhased s1 s2 u pk = .crash .integrityError s2) := by
  refine ⟨?_, ?_, ?_⟩
  · intro r hr hno hyes
    unfold favoriteAddPhased
    simp [hn, hr, hno, hyes]
  · intro r2 hsome hno hr2 hyes
    have hid := findRecipe_id s2 n r2 hr2
    unfold shoppingCartAddPhased
    rw [hn]
    simp only [← hid, any_key_eq_contains]
    have h1 : (findRecipe s1 ((r2.id : Nat) : Int)).isNone = false := by
      rw [hid]
      cases hfr : findRecipe s1 n with
      | none => exact absurd hfr hsome
      | some r => rfl
    rw [h1]
    simp only [Bool.false_eq_true, if_false]
    have h2 : s1.cart.contains (u, r2.id) = false := by
      rw [← Bool.not_eq_true]
      rw [contains_true_iff]
      exact hno
    rw [h2]
    simp only [Bool.false_eq_true, if_false]
    rw [hid, hr2]
    simp [hyes]
  · intro t ht hne hno hyes
    unfold subscribeAddPhased
    have hu : (u == t.id) = false := by
      simp [hne]
    simp [hn, ht, hu, hno, hyes]

/-- Witness for the amended C9: the favorite, cart and follow losers of
a race all crash with the uncaught IntegrityError against concrete
snapshots built over `baseState`. -/
theorem raced_duplicate_insert_crashes_witness :
    favoriteAddPhased baseState { baseState with favorites := [(1, 1)] }
      1 "1" = .crash .integrityError
        { baseState with favorites := [(1, 1)] } ∧
    shoppingCartAddPhased baseState { baseState with cart := [(1, 1)] }
      1 "1" = .crash .integrityError { baseState with cart := [(1, 1)] } ∧
    subscribeAddPhased baseState { baseState with follows := [(1, 2)] }
      1 "2" = .crash .integrityError
        { baseState with follows := [(1, 2)] } := by
  refine ⟨?_, ?_, ?_⟩
  · exact (raced_duplicate_insert_crashes baseState
      { baseState with favorites := [(1, 1)] } 1 "1" 1 (by decide)).1
      ⟨1, "A", "", 5, "a.png", 1⟩ (by decide) (by decide) (by decide)
  · exact (raced_duplicate_insert_crashes baseState
      { baseState with cart := [(1, 1)] } 1 "1" 1 (by decide)).2.1
      ⟨1, "A", "", 5, "a.png", 1⟩ (by decide) (by decide) (by decide)
      (by decide)
  · exact (raced_duplicate_insert_crashes baseState
      { baseState with follows := [(1, 2)] } 1 "2" 2 (by decide)).2.2
      ⟨2, "v", "v@example.com"⟩ (by decide) (by decide) (by decide)
      (by decide)

/-- The grouped sum splits over list concatenation. -/
theorem sumForKey_append (l1 l2 : List ((String × String) × Nat))
    (k : String × String) :
    sumForKey (l1 ++ l2) k = sumForKey l1 k + sumForKey l2 k := by
  unfold sumForKey
  rw [List.filter_append, List.map_append, List.sum_append]

/-- The grouped sum over the keyed projection of association rows is
the sum of the amounts of the rows whose ingredient carries the key. -/
theorem sumForKey_filterMap (s : State) (L : List IngredientRecipe)
    (k : String × String) :
    sumForKey (L.filterMap
        (fun ir => (ingKey s ir.ingredient).map (fun kk => (kk, ir.amount))))
      k =
      ((L.filter (fun ir => ingKey s ir.ingredient == some k)).map
        (fun ir => ir.amount)).sum := by
  induction L with
  | nil => rfl
  | cons ir t ih =>
    cases hkey : ingKey s ir.ingredient with
    | none =>
      rw [List.filterMap_cons, hkey]
      simp only [Option.map_none']
      rw [List.filter_cons]
      simp only [hkey]
      rw [ih]
      rfl
    | some kk =>
      rw [List.filterMap_cons, hkey]
      simp only [Option.map_some']
      rw [List.filter_cons]
      simp only [hkey]
      by_cases hk : kk = k
      · subst hk
        unfold sumForKey
        rw [List.filter_cons]
        simp only [beq_self_eq_true, if_true, List.map_cons, List.sum_cons]
        unfold sumForKey at ih
        rw [ih]
      · have h1 : ((kk, ir.amount).1 == k) = false := by
          simp [hk]
        have h2 : (some kk == some k) = false := by
          simp [hk]
        unfold sumForKey
        rw [List.filter_cons]
        simp only [h1, h2, Bool.false_eq_true, if_false]
        unfold sumForKey at ih
        rw [ih]

/-- The aggregation pipeline's per-key sum equals the nested
across-cart-recipes total computed directly from the tables. -/
theorem sumForKey_keyedRows (s : State) (u : Nat) (k : String × String) :
    sumForKey (keyedRows s u) k = keyTotal s u k := by
  unfold keyedRows joinRows keyTotal
  induction cartRowsOf s u with
  | nil => rfl
  | cons c t ih =>
    rw [List.flatMap_cons, List.filterMap_append, sumForKey_append, ih,
      sumForKey_filterMap, List.map_cons, List.sum_cons]

/-- A key is listed by the grouping step exactly when it occurs among
the ingredient associations of the user's cart recipes. -/
theorem mem_groupKeys_iff (s : State) (u : Nat) (k : String × String) :
    k ∈ groupKeys (keyedRows s u) ↔ keyOccurs s u k := by
  unfold groupKeys keyedRows joinRows keyOccurs
  rw [List.mem_dedup]
  constructor
  · intro hk
    obtain ⟨row, hrow, hfst⟩ := List.mem_map.mp hk
    obtain ⟨ir, hir, hsome⟩ := List.mem_filterMap.mp hrow
    obtain ⟨c, hc, hirf⟩ := List.mem_flatMap.mp hir
    obtain ⟨hirmem, hrec⟩ := List.mem_filter.mp hirf
    cases hkey : ingKey s ir.ingredient with
    | none =>
      rw [hkey] at hsome
      cases hsome
    | some kk =>
      rw [hkey] at hsome
      simp only [Option.map_some', Option.some.injEq] at hsome
      refine ⟨c, hc, ir, hirmem, eq_of_beq hrec, ?_⟩
      rw [hkey, ← hfst, ← hsome]
  · rintro ⟨c, hc, ir, hirm, hrec, hkey⟩
    apply List.mem_map.mpr
    refine ⟨(k, ir.amount), ?_, rfl⟩
    apply List.mem_filterMap.mpr
    refine ⟨ir, ?_, by rw [hkey]; rfl⟩
    apply List.mem_flatMap.mpr
    exact ⟨c, hc, List.mem_filter.mpr ⟨hirm, by simp [hrec]⟩⟩

/-- C1: for every user with a non-empty cart, the aggregator returns
(leaving the state unchanged) one row per distinct (ingredient name,
measurement unit) pair occurring in the ingredient associations of the
cart's recipes, and each row's total equals the sum of the amounts of
all contributing association rows across all cart recipes. -/
theorem download_shopping_cart_aggregates (s : State) (u : Nat)
    (h : cartRowsOf s u ≠ []) :
    ∃ out, downloadShoppingCart s u = .ok out s ∧
      (out.map (fun row => (row.1, row.2.1))).Nodup ∧
      (∀ k : String × String,
        (∃ a, (k.1, k.2, a) ∈ out) ↔ keyOccurs s u k) ∧
      (∀ nm un a, (nm, un, a) ∈ out → a = keyTotal s u (nm, un)) := by
  have hne : (cartRowsOf s u).isEmpty = false := by
    cases hcs : cartRowsOf s u with
    | nil => exact absurd hcs h
    | cons a t => rfl
  refine ⟨(groupKeys (keyedRows s u)).map
      (fun k => (k.1, k.2, sumForKey (keyedRows s u) k)), ?_, ?_, ?_, ?_⟩
  · unfold downloadShoppingCart
    rw [hne]
    rfl
  · rw [List.map_map]
    have hcomp : ((fun row : String × String × Nat => (row.1, row.2.1)) ∘
        (fun k : String × String =>
          (k.1, k.2, sumForKey (keyedRows s u) k))) = id := by
      funext k
      rfl
    rw [hcomp, List.map_id]
    unfold groupKeys
    exact List.nodup_dedup _
  · intro k
    rw [← mem_groupKeys_iff]
    constructor
    · rintro ⟨a, ha⟩
      obtain ⟨k2, hk2, heq⟩ := List.mem_map.mp ha
      rw [Prod.ext_iff] at heq
      obtain ⟨h1, heq2⟩ := heq
      rw [Prod.ext_iff] at heq2
      have hk2k : k2 = k := Prod.ext_iff.mpr ⟨h1, heq2.1⟩
      rw [← hk2k]
      exact hk2
    · intro hk
      exact ⟨sumForKey (keyedRows s u) k, List.mem_map.mpr ⟨k, hk, rfl⟩⟩
  · intro nm un a ha
    obtain ⟨k2, hk2, heq⟩ := List.mem_map.mp ha
    rw [Prod.ext_iff] at heq
    obtain ⟨h1, heq2⟩ := heq
    rw [Prod.ext_iff] at heq2
    have hk2k : k2 = (nm, un) := Prod.ext_iff.mpr ⟨h1, heq2.1⟩
    have ha2 : sumForKey (keyedRows s u) k2 = a := heq2.2
    rw [← ha2, hk2k, sumForKey_keyedRows]

/-- Witness for C1: in `saltState` (recipe A with 2 g of salt and
recipe B with 3 g of salt, both in user 1's cart) the aggregator
returns the single row ("salt", "g", 5), and the general aggregation
properties hold at this state. -/
theorem download_shopping_cart_aggregates_witness :
    downloadShoppingCart saltState 1 = .ok [("salt", "g", 5)] saltState ∧
    (∃ out, downloadShoppingCart saltState 1 = .ok out saltState ∧
      (out.map (fun row => (row.1, row.2.1))).Nodup ∧
      (∀ k : String × String,
        (∃ a, (k.1, k.2, a) ∈ out) ↔ keyOccurs saltState 1 k) ∧
      (∀ nm un a, (nm, un, a) ∈ out → a = keyTotal saltState 1 (nm, un))) :=
  ⟨by decide, download_shopping_cart_aggregates saltState 1 (by decide)⟩

end Foodgram
